import Mathlib

/- Verification development for the DCJumps aggregation engine.

   The repository holds two revisions of the same script:
     * `src/jumpapp/src/scripts/DC_Jumps.py`  (modelled in namespace `JumpApp`)
     * `src/src/scripts/DC_Jumps.py`          (modelled in namespace `SrcScripts`)

   Pure Python string/date primitives are modelled structurally over
   `List Char` so that every definition evaluates inside the kernel.
   Python's `collections.Counter` is modelled by the list of recorded
   occurrences; the counter value of a key is the number of occurrences
   (`List.count`).  File I/O is modelled by a map from path to the
   decoded line list (`none` = the file cannot be opened/decoded by the
   encoding fallback chain).  Thread pools deliver per-file results that
   are folded sequentially by the single reduction loop; the fold order
   is modelled as the submission order (all verified quantities are
   order-independent). -/

namespace DCJumps

/-- Characters treated as whitespace by Python `str.strip` / `str.split`
(ASCII subset; the sources only ever meet ASCII whitespace). -/
def wsChar (c : Char) : Bool := c == ' ' || c == '\t' || c == '\n' || c == '\r'

/-- Model of Python `str.strip()` on a character list. -/
def trimList (cs : List Char) : List Char :=
  ((cs.dropWhile wsChar).reverse.dropWhile wsChar).reverse

/-- Model of Python `str.strip()`. -/
def pyStrip (s : String) : String := String.mk (trimList s.toList)

/-- Worker for `pySplitWS`; `acc` holds the current field reversed. -/
def splitWSAux : List Char → List Char → List String
  | acc, [] => match acc with | [] => [] | _ => [String.mk acc.reverse]
  | acc, c :: rest =>
    if wsChar c then
      match acc with
      | [] => splitWSAux [] rest
      | _ => String.mk acc.reverse :: splitWSAux [] rest
    else splitWSAux (c :: acc) rest

/-- Model of Python `str.split()` with no argument: split on whitespace
runs, discarding empty fields. -/
def pySplitWS (s : String) : List String := splitWSAux [] s.toList

/-- Worker for `pySplitChar`. -/
def splitCharAux (sep : Char) : List Char → List Char → List String
  | acc, [] => [String.mk acc.reverse]
  | acc, c :: rest =>
    if c == sep then String.mk acc.reverse :: splitCharAux sep [] rest
    else splitCharAux sep (c :: acc) rest

/-- Model of Python `str.split(sep)` for a one-character separator
(keeps empty fields, exactly like Python). -/
def pySplitChar (sep : Char) (s : String) : List String := splitCharAux sep [] s.toList

/-- Model of `os.path.basename`. -/
def pyBasename (p : String) : String := (pySplitChar ('/') p).getLastD p

/-- Characters before the first occurrence of `marker` (the whole list
if the marker never occurs); worker for `pyBeforeMarker`. -/
def takeUntil (marker : List Char) : List Char → List Char
  | [] => []
  | c :: rest => if marker.isPrefixOf (c :: rest) then [] else c :: takeUntil marker rest

/-- Model of Python `s.split(marker)[0]` for a nonempty marker. -/
def pyBeforeMarker (marker : String) (s : String) : String :=
  String.mk (takeUntil marker.toList s.toList)

/-- Model of Python `s.startswith(p)`. -/
def strStartsWith (s p : String) : Bool := p.toList.isPrefixOf s.toList

/-- Model of Python `sep.join(l)`. -/
def joinWith (sep : String) : List String → String
  | [] => ""
  | [x] => x
  | x :: xs => x ++ sep ++ joinWith sep xs

/-- Naive (timezone-free) timestamp, mirroring `datetime.datetime`. -/
structure DateTime where
  year : Nat
  month : Nat
  day : Nat
  hour : Nat
  minute : Nat
  second : Nat
deriving DecidableEq

/-- `datetime.min` = 0001-01-01T00:00:00. -/
def dtMin : DateTime := ⟨1, 1, 1, 0, 0, 0⟩

/-- Python `datetime` strict comparison (field-lexicographic). -/
def dtLt (a b : DateTime) : Bool :=
  if a.year ≠ b.year then decide (a.year < b.year)
  else if a.month ≠ b.month then decide (a.month < b.month)
  else if a.day ≠ b.day then decide (a.day < b.day)
  else if a.hour ≠ b.hour then decide (a.hour < b.hour)
  else if a.minute ≠ b.minute then decide (a.minute < b.minute)
  else decide (a.second < b.second)

/-- Python `min` over a datetime list (`none` on the empty list, where
Python would raise; all call sites guard non-emptiness). -/
def dtMinList : List DateTime → Option DateTime
  | [] => none
  | x :: xs => some (xs.foldl (fun m d => if dtLt d m then d else m) x)

/-- Python `max` over a datetime list. -/
def dtMaxList : List DateTime → Option DateTime
  | [] => none
  | x :: xs => some (xs.foldl (fun m d => if dtLt m d then d else m) x)

/-- Gregorian leap-year rule, as used by `datetime`. -/
def isLeap (y : Nat) : Bool := y % 4 == 0 && (y % 100 != 0 || y % 400 == 0)

/-- Days in a month, as used by `datetime`. -/
def daysInMonth (y m : Nat) : Nat :=
  if m == 2 then (if isLeap y then 29 else 28)
  else if m == 4 || m == 6 || m == 9 || m == 11 then 30
  else 31

/-- Numeric value of an ASCII digit. -/
def digitVal (c : Char) : Nat := c.toNat - 48

/-- Two-digit decimal value. -/
def num2 (a b : Char) : Nat := 10 * digitVal a + digitVal b

/-- The century rule of `strptime`'s `%y` directive: 00-68 map to
2000-2068, 69-99 to 1969-1999. -/
def yearOfYY (yy : Nat) : Nat := if yy ≤ 68 then 2000 + yy else 1900 + yy

/-- Model of `datetime.strptime(d + t, "%y%m%d%H%M%S")` for a 6-digit
date token and a 6-digit time token: `%y` maps 00-68 to 2000-2068 and
69-99 to 1969-1999, and the constructed datetime is validated by
calendar rules (`none` = `ValueError`).  With twelve digits the format
can only match two digits per field, so the aligned parse below is the
only one `strptime` attempts. -/
def strptime12 (d t : String) : Option DateTime :=
  match d.toList, t.toList with
  | [y1, y2, mo1, mo2, d1, d2], [h1, h2, mi1, mi2, s1, s2] =>
    let year := yearOfYY (num2 y1 y2)
    let month := num2 mo1 mo2
    let day := num2 d1 d2
    let hour := num2 h1 h2
    let minute := num2 mi1 mi2
    let second := num2 s1 s2
    if 1 ≤ month ∧ month ≤ 12 ∧ 1 ≤ day ∧ day ≤ daysInMonth year month
        ∧ hour ≤ 23 ∧ minute ≤ 59 ∧ second ≤ 59 then
      some ⟨year, month, day, hour, minute, second⟩
    else none
  | _, _ => none

/-- Python exceptions that the modelled code can raise. -/
inductive PyExn where
  | valueError : PyExn
deriving DecidableEq

/-- Model of `datetime.replace(day=d)`: validates the new day against
the month, raising `ValueError` when out of range. -/
def replaceDay (dt : DateTime) (d : Nat) : Except PyExn DateTime :=
  if 1 ≤ d ∧ d ≤ daysInMonth dt.year dt.month then Except.ok { dt with day := d }
  else Except.error PyExn.valueError

/-- The filesystem as seen by the file processors: each path maps to the
decoded list of raw lines, or `none` when the file cannot be opened or
decoded by any encoding in the fallback chain. -/
def FileSys : Type := String → Option (List String)

/-! ## Model of `src/jumpapp/src/scripts/DC_Jumps.py` -/

namespace JumpApp

/-- `FORMAT_LINE_PREFIX` constant. -/
def formatMarker : String := "#format:"

/-- The canonical trailer appended to aggregated content:
`FORMAT_LINE_PREFIX + " " + VERSION_TAG`. -/
def trailerLine : String := "#format: trackfile camera frameIDStartFrame tag"

/-- Inner check of `parse_date_from_session`: the token following a
6-digit date token must be at least 6 characters long with its first 6
characters numeric. -/
def timeTokenOk (q : String) : Bool :=
  decide (6 ≤ q.toList.length) && (q.toList.take 6).all Char.isDigit

/-- The scanning loop of `parse_date_from_session`: find the first
6-digit token whose successor token qualifies and parse the pair with
`strptime`; a `ValueError` inside `strptime` aborts the whole function
(the `except` clause returns `None`), it does not resume the scan.  A
qualifying token in the last position has no successor (`i+1 < len`
fails), so the loop runs off the end and the function returns `None`. -/
def scanPairs : List String → Option DateTime
  | [] => none
  | [_] => none
  | p :: q :: rest =>
    if p.toList.length == 6 && p.toList.all Char.isDigit then
      if timeTokenOk q then strptime12 p (String.mk (q.toList.take 6))
      else scanPairs (q :: rest)
    else scanPairs (q :: rest)

/-- `parse_date_from_session`: split the session name on underscores and,
only when there are at least 3 tokens, scan for a `YYMMDD` token followed
by an `HHMMSS` token. -/
def parse_date_from_session (session_name : String) : Option DateTime :=
  let parts := pySplitChar ('_') session_name
  if 3 ≤ parts.length then scanPairs parts else none

/-- Tail check for the filename pattern `^(.*?)_([^_]+)_DATACO-\d+\.jump$`:
after `_DATACO-` there must be a nonempty digit run followed exactly by
`.jump`. -/
def digitsJumpOk (cs : List Char) : Bool :=
  let ds := cs.takeWhile Char.isDigit
  !ds.isEmpty && (cs.drop ds.length == (".jump").toList)

/-- Check that a suffix has shape `([^_]+)_DATACO-\d+\.jump`; since the
group cannot contain an underscore, it must be exactly the characters
before the first underscore of the suffix. -/
def sessionTailOk (cs : List Char) : Bool :=
  let g2 := cs.takeWhile (fun c => c != '_')
  !g2.isEmpty && ((cs.drop g2.length).take 8 == ("_DATACO-").toList)
    && digitsJumpOk ((cs.drop g2.length).drop 8)

/-- Scanning loop realising the non-greedy `(.*?)` group: the leftmost
underscore whose remaining suffix fits `([^_]+)_DATACO-\d+\.jump` ends
the session-name group. -/
def sessionScanAux : List Char → List Char → Option String
  | _, [] => none
  | acc, c :: rest =>
    if c == '_' && sessionTailOk rest then some (String.mk acc.reverse)
    else sessionScanAux (c :: acc) rest

/-- `extract_session_name`: match the basename against
`^(.*?)_([^_]+)_DATACO-\d+\.jump$` and return the first group. -/
def extract_session_name (file_path : String) : Option String :=
  sessionScanAux [] (pyBasename file_path).toList

/-- `extract_tag_from_line` (jumpapp revision): the LAST
whitespace-separated field, provided there are at least 4 fields. -/
def extract_tag_from_line (line : String) : Option String :=
  let parts := pySplitWS (pyStrip line)
  if 4 ≤ parts.length then some (parts.getLastD ("")) else none

/-- The line filter of `process_file_task`: strip each raw line, keep it
when it is nonempty (Python truthiness) and does not start with
`#format:`. -/
def contentLines (rawLines : List String) : List String :=
  (rawLines.map pyStrip).filter (fun s => !(s == "") && !(strStartsWith s formatMarker))

/-- Result of one successfully processed file.  `tags` is the sequence
of per-line extracted tags (the local `Counter` is the multiset of these
occurrences; `extract_tag_from_line` never returns an empty string, so
Python's `if tag:` truthiness test is exactly the `some` test). -/
structure TaskResult where
  session_name : String
  lines : List String
  tags : List String
deriving DecidableEq

/-- `process_file_task`: skip (return `none` for) files whose name does
not match the pattern and files that cannot be opened/decoded; otherwise
return the kept content lines and their extracted tags. -/
def process_file_task (fs : FileSys) (file_path : String) : Option TaskResult :=
  match extract_session_name file_path with
  | none => none
  | some session_name =>
    match fs file_path with
    | none => none
    | some rawLines =>
      let cl := contentLines rawLines
      some ⟨session_name, cl, cl.filterMap extract_tag_from_line⟩

/-- Content lines contributed by one file (empty for a skipped file). -/
def taskContent (fs : FileSys) (file_path : String) : List String :=
  match process_file_task fs file_path with
  | some r => r.lines
  | none => []

/-- Tag occurrences contributed by one file (empty for a skipped file). -/
def taskTags (fs : FileSys) (file_path : String) : List String :=
  match process_file_task fs file_path with
  | some r => r.tags
  | none => []

/-- One iteration of the result-draining loop in
`process_files_multi_threaded`. -/
def pfmtStep (fs : FileSys) (acc : List String × List String × Nat) (fp : String) :
    List String × List String × Nat :=
  match process_file_task fs fp with
  | some r => (acc.1 ++ r.lines, acc.2.1 ++ r.tags, acc.2.2 + r.lines.length)
  | none => acc

/-- `process_files_multi_threaded`: fold all completed task results into
combined content, combined tag occurrences and the event count, then
append the trailer when content was produced and does not already end
with a `#format:` line. -/
def process_files_multi_threaded (fs : FileSys) (files : List String) :
    List String × List String × Nat :=
  if files.isEmpty then ([], [], 0)
  else
    let res := files.foldl (pfmtStep fs) ([], [], 0)
    if !res.1.isEmpty && !(strStartsWith (res.1.getLastD ("")) formatMarker) then
      (res.1 ++ [trailerLine], res.2.1, res.2.2)
    else res

/-- `get_date_key_for_sort`: date parsed from the session name, falling
back to `datetime.min` for unmatched names or unparseable dates. -/
def get_date_key_for_sort (file_path : String) : DateTime :=
  match extract_session_name file_path with
  | some s =>
    match parse_date_from_session s with
    | some dt => dt
    | none => dtMin
  | none => dtMin

/-- Insertion step of the date sort. -/
def insertByDate (x : String) : List String → List String
  | [] => [x]
  | y :: ys =>
    if dtLt (get_date_key_for_sort x) (get_date_key_for_sort y) then x :: y :: ys
    else y :: insertByDate x ys

/-- `sort_files_by_date_key`: stable sort by the extracted date key
(insertion sort; only the multiset of paths matters to the claims). -/
def sort_files_by_date_key (files : List String) : List String :=
  files.foldr insertByDate []

/-- Python `set.add` on an insertion-ordered list model of a set. -/
def addSet (l : List String) (x : String) : List String :=
  if x ∈ l then l else l ++ [x]

/-- `defaultdict(list)` update `m[k].extend(v)`. -/
def extendAssoc (m : List (String × List String)) (k : String) (v : List String) :
    List (String × List String) :=
  if (m.lookup k).isSome then
    m.map (fun p => if p.1 == k then (p.1, p.2 ++ v) else p)
  else m ++ [(k, v)]

/-- `DATACOData`; `tags` is the occurrence list underlying the
`tag_counts` Counter. -/
structure DATACOData where
  dataco_number : String
  files : List String
  project_map : List (String × List String)
  content : List String
  tags : List String
  event_count : Nat
  session_names : List String
  session_dates : List (String × Option DateTime)
  min_date : Option DateTime
  max_date : Option DateTime
  processed_files_count : Nat
  failed_files : List String
deriving DecidableEq

/-- The `tag_counts` Counter viewed as a function. -/
def DATACOData.tag_counts (d : DATACOData) (t : String) : Nat := d.tags.count t

/-- `DATACOData.__init__`. -/
def DATACOData.init (n : String) : DATACOData :=
  ⟨n, [], [], [], [], 0, [], [], none, none, 0, []⟩

/-- `DATACOData.update_stats`: min/max over session dates that are
neither `None` nor `datetime.min`. -/
def update_stats_dates (sd : List (String × Option DateTime)) :
    Option DateTime × Option DateTime :=
  let valid := ((sd.map Prod.snd).filterMap id).filter (fun d => d != dtMin)
  (dtMinList valid, dtMaxList valid)

/-- Mutable state of the result-draining loop in `load_dataco_data`. -/
structure LoadState where
  content : List String
  tags : List String
  event_count : Nat
  session_names : List String
  session_dates : List (String × Option DateTime)
  processed : Nat
  failed : List String
deriving DecidableEq

/-- One iteration of the result-draining loop in `load_dataco_data`. -/
def loadStep (fs : FileSys) (st : LoadState) (fp : String) : LoadState :=
  match process_file_task fs fp with
  | some r =>
    { st with
      content := st.content ++ r.lines
      tags := st.tags ++ r.tags
      event_count := st.event_count + r.lines.length
      session_names := addSet st.session_names r.session_name
      session_dates :=
        if (st.session_dates.lookup r.session_name).isSome then st.session_dates
        else st.session_dates ++ [(r.session_name, parse_date_from_session r.session_name)]
      processed := st.processed + 1 }
  | none => { st with failed := st.failed ++ [pyBasename fp] }

/-- The file-discovery loop of `load_dataco_data`: build `project_map`
and `all_files` from the per-project glob results (projects with no
matching files are skipped). -/
def projectScan (projects : List (String × List String)) :
    List (String × List String) × List String :=
  projects.foldl
    (fun (acc : List (String × List String) × List String) pr =>
      match pr.2 with
      | [] => acc
      | _ => (extendAssoc acc.1 pr.1 pr.2, acc.2 ++ pr.2)) ([], [])

/-- The processing phase of `load_dataco_data` over the already sorted
file list: early return when no file was found, otherwise drain the
task results, append the trailer when at least one file was processed,
and run `update_stats`. -/
def loadOver (fs : FileSys) (dataco_number : String)
    (pm : List (String × List String)) (files : List String) : DATACOData :=
  if files.isEmpty then
    { DATACOData.init dataco_number with project_map := pm, files := files }
  else
    let st := files.foldl (loadStep fs) ⟨[], [], 0, [], [], 0, []⟩
    { dataco_number := dataco_number
      files := files
      project_map := pm
      content := if 0 < st.processed then st.content ++ [trailerLine] else st.content
      tags := st.tags
      event_count := st.event_count
      session_names := st.session_names
      session_dates := st.session_dates
      min_date := (update_stats_dates st.session_dates).1
      max_date := (update_stats_dates st.session_dates).2
      processed_files_count := st.processed
      failed_files := st.failed }

/-- `load_dataco_data`.  Directory discovery (`os.scandir` + `glob`) is
I/O and is passed in as `projects`: for each project folder, its name
and the paths matching `*DATACO-<n>.jump` under it. -/
def load_dataco_data (fs : FileSys) (dataco_number : String)
    (projects : List (String × List String)) : DATACOData :=
  loadOver fs dataco_number (projectScan projects).1
    (sort_files_by_date_key (projectScan projects).2)

/-- Dict update `m.update(l)` for `session_dates` during merge: an
existing key is overwritten (later dataset wins), a new key is appended. -/
def updAssoc (m : List (String × Option DateTime)) (kv : String × Option DateTime) :
    List (String × Option DateTime) :=
  if (m.lookup kv.1).isSome then
    m.map (fun p => if p.1 == kv.1 then (p.1, kv.2) else p)
  else m ++ [kv]

/-- `defaultdict(set)` update `m[k].update(v)` with deduplicated values. -/
def extendAssocSet (m : List (String × List String)) (k : String) (v : List String) :
    List (String × List String) :=
  if (m.lookup k).isSome then
    m.map (fun p => if p.1 == k then (p.1, (p.2 ++ v).dedup) else p)
  else m ++ [(k, v.dedup)]

/-- Body of `merge_dataco_results` once the arity check has passed: the
union (a Python `set`, modelled as a deduplicated list) of the input
file lists is re-processed from scratch. -/
def mergeBody (fs : FileSys) (datasets : List DATACOData) : DATACOData :=
  let merged_number := ("MERGED_") ++ joinWith ("_") (datasets.map (fun d => d.dataco_number))
  let all_files := (datasets.foldl (fun acc d => acc ++ d.files) []).dedup
  let all_sessions := (datasets.foldl (fun acc d => acc ++ d.session_names) []).dedup
  let all_session_dates := datasets.foldl (fun acc d => d.session_dates.foldl updAssoc acc) []
  let project_map := datasets.foldl
    (fun acc d => d.project_map.foldl (fun acc2 pr => extendAssocSet acc2 pr.1 pr.2) acc) []
  let files := sort_files_by_date_key all_files
  let res := process_files_multi_threaded fs files
  let mm := update_stats_dates all_session_dates
  { dataco_number := merged_number
    files := files
    project_map := project_map
    content := res.1
    tags := res.2.1
    event_count := res.2.2
    session_names := all_sessions
    session_dates := all_session_dates
    min_date := mm.1
    max_date := mm.2
    processed_files_count := (datasets.map (fun d => d.processed_files_count)).sum
    failed_files := (datasets.foldl (fun acc d => acc ++ d.failed_files) []).dedup }

/-- `merge_dataco_results`: `None` on fewer than two inputs, otherwise
the re-aggregated merge. -/
def merge_dataco_results (fs : FileSys) (datasets : List DATACOData) : Option DATACOData :=
  if datasets.length < 2 then none else some (mergeBody fs datasets)

/-- Distinct tag keys of a dataset (the Counter's key set). -/
def tagKeys (d : DATACOData) : List String := d.tags.dedup

/-- `DATACOComparer._find_common_tags`. -/
def aCommon : List DATACOData → List String
  | [] => []
  | d :: ds => ds.foldl (fun c d2 => c.filter (fun t => decide (t ∈ tagKeys d2))) (tagKeys d)

/-- `DATACOComparer._find_unique_tags`; "other" datasets are the other
list positions (Python compares the objects by identity). -/
def aUniqueAux : List DATACOData → List DATACOData → List (String × List String)
  | _, [] => []
  | before, d :: after =>
    let others := (before ++ after).foldl (fun acc d2 => acc ++ tagKeys d2) []
    (d.dataco_number, (tagKeys d).filter (fun t => !(decide (t ∈ others))))
      :: aUniqueAux (before ++ [d]) after

/-- Outcome of the jumpapp `compare_datacos` API call: the error
dictionary or the comparison payload (`get_comparison_data`). -/
inductive ACompare where
  | errDict (msg : String)
  | payload (datasets : List String) (common : List String)
      (unique : List (String × List String)) (stats : List DATACOData)
deriving DecidableEq

/-- `compare_datacos` (jumpapp): load every requested number, keep the
datasets that found files, and require at least two of them. -/
def compare_datacos (fs : FileSys) (disc : String → List (String × List String))
    (numbers : List String) : ACompare :=
  let datasets := (numbers.map (fun n => load_dataco_data fs n (disc n))).filter
    (fun d => !d.files.isEmpty)
  if datasets.length < 2 then
    ACompare.errDict ("Need at least two valid DATACO datasets to compare")
  else
    ACompare.payload (datasets.map (fun d => d.dataco_number)) (aCommon datasets)
      (aUniqueAux [] datasets) datasets

/-- Outcome of the jumpapp `merge_datacos` API call. -/
inductive AMerge where
  | errDict (msg : String)
  | payload (merged : DATACOData)
deriving DecidableEq

/-- `merge_datacos` (jumpapp). -/
def merge_datacos (fs : FileSys) (disc : String → List (String × List String))
    (numbers : List String) : AMerge :=
  let datasets := (numbers.map (fun n => load_dataco_data fs n (disc n))).filter
    (fun d => !d.files.isEmpty)
  if datasets.length < 2 then
    AMerge.errDict ("Need at least two valid DATACO datasets to merge")
  else
    match merge_dataco_results fs datasets with
    | some m => AMerge.payload m
    | none => AMerge.errDict ("Failed to merge datasets")

/-- Content lines contributed by a file list, in submission order
(characterises the fold in both aggregation loops). -/
def aggContent (fs : FileSys) : List String → List String
  | [] => []
  | fp :: rest => taskContent fs fp ++ aggContent fs rest

/-- Tag occurrences contributed by a file list, in submission order. -/
def aggTags (fs : FileSys) : List String → List String
  | [] => []
  | fp :: rest => taskTags fs fp ++ aggTags fs rest

/-- Total number of content lines contributed per file. -/
def aggEvents (fs : FileSys) (files : List String) : Nat :=
  (files.map (fun fp => (taskContent fs fp).length)).sum

/-- Number of files whose task succeeds. -/
def countSome (fs : FileSys) (files : List String) : Nat :=
  (files.filter (fun fp => (process_file_task fs fp).isSome)).length

/-- Basenames of the files whose task is skipped (returns `None`). -/
def failedOf (fs : FileSys) (files : List String) : List String :=
  (files.filter (fun fp => (process_file_task fs fp).isNone)).map pyBasename

end JumpApp

/-! ## Model of `src/src/scripts/DC_Jumps.py` -/

namespace SrcScripts

/-- `extract_tag_from_line` (src/src revision): everything after the
frame ID, i.e. the join of the whitespace-separated fields from index 3
onward, provided there are at least 4 fields. -/
def extract_tag_from_line (line : String) : Option String :=
  let parts := pySplitWS (pyStrip line)
  if parts.length < 4 then none
  else some (joinWith (" ") (parts.drop 3))

/-- The dictionary returned by a successful `load_dataco` run.  `tags`
is the occurrence list underlying the `tag_counts` Counter; `min_date` /
`max_date` are nullable JSON fields (this revision always fills them). -/
structure BLoadRecord where
  dataco_number : String
  total_files : Nat
  processed_files : Nat
  failed_files : Nat
  session_count : Nat
  event_count : Nat
  unique_tags : Nat
  min_date : Option DateTime
  max_date : Option DateTime
  tags : List String
  sessions : List String
  content : List String
  content_sample : List String
  content_truncated : Bool
deriving DecidableEq

/-- A `load_dataco` return value: the structured error dictionary or the
success dictionary. -/
inductive BLoad where
  | errDict (msg : String)
  | okDict (r : BLoadRecord)
deriving DecidableEq

/-- Session name extraction in this revision:
`basename.split("_DATACO-" + n)[0]`. -/
def bSession (dataco : String) (file_path : String) : String :=
  pyBeforeMarker (("_DATACO-") ++ dataco) (pyBasename file_path)

/-- Per-file loop state of `load_dataco`: accumulated content lines, tag
occurrences and session-name set. -/
def bLoadStep (fs : FileSys) (dataco : String)
    (acc : List String × List String × List String) (fp : String) :
    List String × List String × List String :=
  let sessions := JumpApp.addSet acc.2.2 (bSession dataco fp)
  match fs fp with
  | none => (acc.1, acc.2.1, sessions)
  | some rawLines =>
    let cl := JumpApp.contentLines rawLines
    (acc.1 ++ cl, acc.2.1 ++ cl.filterMap extract_tag_from_line, sessions)

/-- `load_dataco` (src/src revision).  File discovery is passed in as
`files` (the recursive glob result).  The session name is recorded
before the file is opened, so an unreadable file (its read error is
caught and logged) still contributes its session.  After the loop the
function computes `yesterday = now.replace(day=now.day-1)`, which raises
`ValueError` out of the function whenever `now.day = 1`. -/
def load_dataco (now : DateTime) (fs : FileSys) (dataco : String)
    (files : List String) : Except PyExn BLoad :=
  if files.isEmpty then Except.ok (BLoad.errDict (("No files found for DATACO-") ++ dataco))
  else
    let st := files.foldl (bLoadStep fs dataco) ([], [], [])
    match replaceDay now (now.day - 1) with
    | Except.error e => Except.error e
    | Except.ok yesterday =>
      Except.ok (BLoad.okDict
        { dataco_number := dataco
          total_files := files.length
          processed_files := files.length
          failed_files := 0
          session_count := st.2.2.length
          event_count := st.1.length
          unique_tags := st.2.1.dedup.length
          min_date := some yesterday
          max_date := some now
          tags := st.2.1
          sessions := st.2.2
          content := st.1
          content_sample := st.1.take 100
          content_truncated := decide (100 < st.1.length) })

/-- A `compare_datacos` return value in this revision. -/
inductive BCompare where
  | errDict (msg : String)
  | payload (datasets : List String) (common : List String)
      (unique : List (String × List String)) (stats : List BLoadRecord)
deriving DecidableEq

/-- The load loop of `compare_datacos`: datasets whose load produced an
error dictionary are skipped; a raised exception propagates. -/
def bLoadAll (now : DateTime) (fs : FileSys) (disc : String → List String) :
    List String → Except PyExn (List String × List BLoadRecord)
  | [] => Except.ok ([], [])
  | n :: ns =>
    match load_dataco now fs n (disc n) with
    | Except.error e => Except.error e
    | Except.ok (BLoad.errDict _) => bLoadAll now fs disc ns
    | Except.ok (BLoad.okDict r) =>
      match bLoadAll now fs disc ns with
      | Except.error e => Except.error e
      | Except.ok (ds, ss) => Except.ok (n :: ds, r :: ss)

/-- Common tags across the successfully loaded stats. -/
def bCommon : List BLoadRecord → List String
  | [] => []
  | r :: rs => rs.foldl (fun c r2 => c.filter (fun t => decide (t ∈ r2.tags.dedup))) r.tags.dedup

/-- Unique tags per loaded dataset (others = the other list positions). -/
def bUniqueAux : List (String × BLoadRecord) → List (String × BLoadRecord) →
    List (String × List String)
  | _, [] => []
  | before, (n, r) :: after =>
    let others := (before ++ after).foldl (fun acc p => acc ++ p.2.tags) []
    (n, r.tags.dedup.filter (fun t => !(decide (t ∈ others))))
      :: bUniqueAux (before ++ [(n, r)]) after

/-- `compare_datacos` (src/src revision): the arity check counts the
REQUESTED numbers, not the valid datasets; with at least two requested
numbers the comparison payload is returned over however many datasets
actually loaded. -/
def compare_datacos (now : DateTime) (fs : FileSys) (disc : String → List String)
    (numbers : List String) : Except PyExn BCompare :=
  if numbers.length < 2 then
    Except.ok (BCompare.errDict ("At least two DATACO numbers are required for comparison"))
  else
    match bLoadAll now fs disc numbers with
    | Except.error e => Except.error e
    | Except.ok (ds, stats) =>
      Except.ok (BCompare.payload ds (bCommon stats) (bUniqueAux [] (ds.zip stats)) stats)

end SrcScripts

/-! ## Claim-side definitions and concrete inputs -/

/-- The non-null values of a `session_dates` mapping (the spec's "all
non-null values in sessionDates"). -/
def nonNullDates (sd : List (String × Option DateTime)) : List DateTime :=
  (sd.map Prod.snd).filterMap id

/-- The claim's "line with at least 4 whitespace-separated fields". -/
def parseableLine (l : String) : Bool := decide (4 ≤ (pySplitWS (pyStrip l)).length)

/-- Whether a src/src compare outcome is the structured error dictionary. -/
def SrcScripts.BCompare.isErr : SrcScripts.BCompare → Bool
  | SrcScripts.BCompare.errDict _ => true
  | SrcScripts.BCompare.payload _ _ _ _ => false

/-- The datasets listed in a src/src compare payload. -/
def SrcScripts.BCompare.datasetsOf : SrcScripts.BCompare → List String
  | SrcScripts.BCompare.errDict _ => []
  | SrcScripts.BCompare.payload ds _ _ _ => ds

/-- The `min_date` field of a src/src load outcome. -/
def SrcScripts.BLoad.minDateOf : SrcScripts.BLoad → Option DateTime
  | SrcScripts.BLoad.errDict _ => none
  | SrcScripts.BLoad.okDict r => r.min_date

/-- The `sessions` field of a src/src load outcome. -/
def SrcScripts.BLoad.sessionsOf : SrcScripts.BLoad → List String
  | SrcScripts.BLoad.errDict _ => []
  | SrcScripts.BLoad.okDict r => r.sessions

/-- Filesystem with two disjoint single-file datasets carrying tags. -/
def fsC1 : FileSys := fun p =>
  if p == ("P/A_x_DATACO-1.jump") then some ["t1 cam 10 dog", "t1 cam 11 cat"]
  else if p == ("Q/B_y_DATACO-2.jump") then some ["t2 cam 20 dog"]
  else none

/-- Discovery result for dataset 1 under `fsC1`. -/
def paC1 : List (String × List String) := [(("P"), ["P/A_x_DATACO-1.jump"])]

/-- Discovery result for dataset 2 under `fsC1`. -/
def pbC1 : List (String × List String) := [(("Q"), ["Q/B_y_DATACO-2.jump"])]

/-- Filesystem whose two files decode fine but hold only `#format:`
lines, so their tasks succeed with zero content lines. -/
def fsC2 : FileSys := fun p =>
  if p == ("P/A_x_DATACO-1.jump") then some ["#format: old"]
  else if p == ("P/B_y_DATACO-2.jump") then some ["#format: old"]
  else none

/-- Discovery result for dataset 1 under `fsC2`. -/
def paC2 : List (String × List String) := [(("P"), ["P/A_x_DATACO-1.jump"])]

/-- Discovery result for dataset 2 under `fsC2`. -/
def pbC2 : List (String × List String) := [(("P"), ["P/B_y_DATACO-2.jump"])]

/-- Filesystem with one decodable file whose basename matches the glob
`*DATACO-1.jump` but not the session-name regex (no underscore). -/
def fsC4 : FileSys := fun p =>
  if p == ("P/DATACO-1.jump") then some ["a b c d"] else none

/-- Discovery result under `fsC4`. -/
def pC4 : List (String × List String) := [(("P"), ["P/DATACO-1.jump"])]

/-- Filesystem on which every read fails. -/
def fsNone : FileSys := fun _ => none

/-- A wall-clock instant on the first day of a month. -/
def nowDayOne : DateTime := ⟨2025, 3, 1, 10, 0, 0⟩

/-- A wall-clock instant in the middle of a month. -/
def nowMid : DateTime := ⟨2025, 3, 15, 10, 0, 0⟩

/-- Filesystem for the src/src counterexamples: one file for dataset 1,
nothing for dataset 2; the session name `S` carries no date. -/
def fsC9 : FileSys := fun p =>
  if p == ("P/S_DATACO-1.jump") then some ["a b c tag1"] else none

/-- src/src discovery: dataset 1 has one file, dataset 2 none. -/
def discC9 : String → List String := fun n =>
  if n == ("1") then ["P/S_DATACO-1.jump"] else []

/-- src/src filesystem for the C8 counterexample. -/
def fsC8 : FileSys := fun p =>
  if p == ("P/S_DATACO-7.jump") then some ["x y z w"] else none

/-- Empty jumpapp-style discovery (no project has files). -/
def discAEmpty : String → List (String × List String) := fun _ => []

/-- Empty src/src-style discovery. -/
def discBEmpty : String → List String := fun _ => []

/-! ## Shared lemmas -/

open JumpApp

lemma dtLt_iff (a b : DateTime) : dtLt a b = true ↔
    (a.year < b.year ∨ (a.year = b.year ∧ (a.month < b.month ∨ (a.month = b.month ∧
      (a.day < b.day ∨ (a.day = b.day ∧ (a.hour < b.hour ∨ (a.hour = b.hour ∧
      (a.minute < b.minute ∨ (a.minute = b.minute ∧ a.second < b.second)))))))))) := by
  unfold dtLt
  split_ifs <;> simp only [decide_eq_true_eq] <;> omega

lemma dtLt_irrefl (a : DateTime) : dtLt a a = false := by
  cases h : dtLt a a with
  | false => rfl
  | true => rw [dtLt_iff] at h; omega

lemma dtLt_trans {a b c : DateTime} (h1 : dtLt a b = true) (h2 : dtLt b c = true) :
    dtLt a c = true := by
  rw [dtLt_iff] at h1 h2 ⊢
  omega

lemma dtLt_cross {a b c : DateTime} (h1 : dtLt a c = true) (h2 : dtLt a b = false) :
    dtLt b c = true := by
  have h2' : ¬ (dtLt a b = true) := by simp [h2]
  rw [dtLt_iff] at h1 h2' ⊢
  omega

lemma contentLines_no_marker {raw : List String} {l : String} (hl : l ∈ contentLines raw) :
    strStartsWith l formatMarker = false := by
  unfold contentLines at hl
  have h := (List.mem_filter.mp hl).2
  simp only [Bool.and_eq_true, Bool.not_eq_true'] at h
  exact h.2

lemma process_file_task_lines (fs : FileSys) (fp : String) (r : TaskResult)
    (h : process_file_task fs fp = some r) :
    ∃ raw, fs fp = some raw ∧ r.lines = contentLines raw
      ∧ r.tags = r.lines.filterMap JumpApp.extract_tag_from_line := by
  unfold process_file_task at h
  cases hs : extract_session_name fp with
  | none => rw [hs] at h; exact absurd h (by simp)
  | some s =>
    rw [hs] at h
    cases hf : fs fp with
    | none => rw [hf] at h; exact absurd h (by simp)
    | some raw =>
      rw [hf] at h
      refine ⟨raw, rfl, ?_, ?_⟩ <;> (cases h; rfl)

lemma taskContent_no_marker (fs : FileSys) (fp : String) {l : String}
    (hl : l ∈ taskContent fs fp) : strStartsWith l formatMarker = false := by
  unfold taskContent at hl
  cases h : process_file_task fs fp with
  | none => rw [h] at hl; simp at hl
  | some r =>
    rw [h] at hl
    dsimp only at hl
    obtain ⟨raw, _, hlines, _⟩ := process_file_task_lines fs fp r h
    rw [hlines] at hl
    exact contentLines_no_marker hl

lemma aggContent_no_marker (fs : FileSys) (files : List String) :
    ∀ l ∈ aggContent fs files, strStartsWith l formatMarker = false := by
  induction files with
  | nil => intro l hl; simp [aggContent] at hl
  | cons fp rest ih =>
    intro l hl
    rcases List.mem_append.mp (by simpa [aggContent] using hl) with h1 | h2
    · exact taskContent_no_marker fs fp h1
    · exact ih l h2

lemma trailer_not_mem_aggContent (fs : FileSys) (files : List String) :
    trailerLine ∉ aggContent fs files := by
  intro h
  exact absurd (aggContent_no_marker fs files trailerLine h) (by decide)

lemma getLastD_mem_self {l : List String} (h : ¬ l.isEmpty = true) : l.getLastD ("") ∈ l := by
  cases l with
  | nil => simp at h
  | cons x xs => rw [List.getLastD_cons]; exact List.getLastD_mem_cons xs x

lemma foldl_pfmtStep (fs : FileSys) (files : List String) :
    ∀ (a b : List String) (c : Nat),
    files.foldl (pfmtStep fs) (a, b, c)
      = (a ++ aggContent fs files, b ++ aggTags fs files, c + aggEvents fs files) := by
  induction files with
  | nil => intro a b c; simp [aggContent, aggTags, aggEvents]
  | cons fp rest ih =>
    intro a b c
    rw [List.foldl_cons]
    cases h : process_file_task fs fp with
    | some r =>
      rw [show pfmtStep fs (a, b, c) fp = (a ++ r.lines, b ++ r.tags, c + r.lines.length) by
        simp [pfmtStep, h]]
      rw [ih]
      simp [aggContent, aggTags, aggEvents, taskContent, taskTags, h, List.append_assoc]
      omega
    | none =>
      rw [show pfmtStep fs (a, b, c) fp = (a, b, c) by simp [pfmtStep, h]]
      rw [ih]
      simp [aggContent, aggTags, aggEvents, taskContent, taskTags, h]

lemma pfmt_eq (fs : FileSys) (files : List String) :
    process_files_multi_threaded fs files
      = (aggContent fs files ++ (if aggContent fs files = [] then [] else [trailerLine]),
         aggTags fs files, aggEvents fs files) := by
  unfold process_files_multi_threaded
  by_cases he : files.isEmpty
  · rw [if_pos he]
    rw [List.isEmpty_iff.mp he]
    simp [aggContent, aggTags, aggEvents]
  · rw [if_neg he]
    rw [foldl_pfmtStep]
    simp only [List.nil_append, Nat.zero_add]
    by_cases hn : aggContent fs files = []
    · simp [hn]
    · have hlast : strStartsWith ((aggContent fs files).getLastD ("")) formatMarker = false :=
        aggContent_no_marker fs files _ (getLastD_mem_self (by simp [List.isEmpty_iff, hn]))
      rw [List.getLastD_eq_getLast?] at hlast
      simp [hn, hlast]

lemma foldl_loadStep_content (fs : FileSys) (files : List String) : ∀ st : LoadState,
    (files.foldl (loadStep fs) st).content = st.content ++ aggContent fs files := by
  induction files with
  | nil => intro st; simp [aggContent]
  | cons fp rest ih =>
    intro st
    rw [List.foldl_cons, ih]
    cases h : process_file_task fs fp with
    | some r => simp [loadStep, h, aggContent, taskContent, List.append_assoc]
    | none => simp [loadStep, h, aggContent, taskContent]

lemma foldl_loadStep_tags (fs : FileSys) (files : List String) : ∀ st : LoadState,
    (files.foldl (loadStep fs) st).tags = st.tags ++ aggTags fs files := by
  induction files with
  | nil => intro st; simp [aggTags]
  | cons fp rest ih =>
    intro st
    rw [List.foldl_cons, ih]
    cases h : process_file_task fs fp with
    | some r => simp [loadStep, h, aggTags, taskTags, List.append_assoc]
    | none => simp [loadStep, h, aggTags, taskTags]

lemma foldl_loadStep_events (fs : FileSys) (files : List String) : ∀ st : LoadState,
    (files.foldl (loadStep fs) st).event_count = st.event_count + aggEvents fs files := by
  induction files with
  | nil => intro st; simp [aggEvents]
  | cons fp rest ih =>
    intro st
    rw [List.foldl_cons, ih]
    cases h : process_file_task fs fp with
    | some r =>
      simp [loadStep, h, aggEvents, taskContent]
      omega
    | none => simp [loadStep, h, aggEvents, taskContent]

lemma foldl_loadStep_processed (fs : FileSys) (files : List String) : ∀ st : LoadState,
    (files.foldl (loadStep fs) st).processed = st.processed + countSome fs files := by
  induction files with
  | nil => intro st; simp [countSome]
  | cons fp rest ih =>
    intro st
    rw [List.foldl_cons, ih]
    cases h : process_file_task fs fp with
    | some r =>
      simp [loadStep, h, countSome]
      omega
    | none => simp [loadStep, h, countSome]

lemma foldl_loadStep_failed (fs : FileSys) (files : List String) : ∀ st : LoadState,
    (files.foldl (loadStep fs) st).failed = st.failed ++ failedOf fs files := by
  induction files with
  | nil => intro st; simp [failedOf]
  | cons fp rest ih =>
    intro st
    rw [List.foldl_cons, ih]
    cases h : process_file_task fs fp with
    | some r => simp [loadStep, h, failedOf]
    | none => simp [loadStep, h, failedOf]

lemma foldl_loadStep_dates (fs : FileSys) (files : List String) : ∀ st : LoadState,
    (∀ kv ∈ st.session_dates, kv.2 = parse_date_from_session kv.1) →
    ∀ kv ∈ (files.foldl (loadStep fs) st).session_dates,
      kv.2 = parse_date_from_session kv.1 := by
  induction files with
  | nil => intro st h; exact h
  | cons fp rest ih =>
    intro st h
    rw [List.foldl_cons]
    apply ih
    intro kv hkv
    cases hp : process_file_task fs fp with
    | none => rw [show loadStep fs st fp = { st with failed := st.failed ++ [pyBasename fp] } by
        simp [loadStep, hp]] at hkv; exact h kv hkv
    | some r =>
      simp only [loadStep, hp] at hkv
      by_cases hc : (st.session_dates.lookup r.session_name).isSome
      · rw [if_pos hc] at hkv; exact h kv hkv
      · rw [if_neg hc] at hkv
        rcases List.mem_append.mp hkv with h1 | h2
        · exact h kv h1
        · have : kv = (r.session_name, parse_date_from_session r.session_name) := by
            simpa using h2
          rw [this]

lemma loadOver_spec (fs : FileSys) (n : String) (pm : List (String × List String))
    (files : List String) :
    (loadOver fs n pm files).files = files
  ∧ (loadOver fs n pm files).tags = aggTags fs files
  ∧ (loadOver fs n pm files).content
      = aggContent fs files ++ (if 0 < countSome fs files then [trailerLine] else [])
  ∧ (loadOver fs n pm files).event_count = aggEvents fs files
  ∧ (loadOver fs n pm files).processed_files_count = countSome fs files
  ∧ (loadOver fs n pm files).failed_files = failedOf fs files
  ∧ (∀ kv ∈ (loadOver fs n pm files).session_dates, kv.2 = parse_date_from_session kv.1)
  ∧ (loadOver fs n pm files).min_date
      = (update_stats_dates (loadOver fs n pm files).session_dates).1
  ∧ (loadOver fs n pm files).max_date
      = (update_stats_dates (loadOver fs n pm files).session_dates).2 := by
  unfold loadOver
  by_cases he : files.isEmpty
  · rw [if_pos he]
    rw [List.isEmpty_iff.mp he]
    refine ⟨rfl, by simp [DATACOData.init, aggTags], ?_, by simp [DATACOData.init, aggEvents],
      by simp [DATACOData.init, countSome], by simp [DATACOData.init, failedOf],
      by simp [DATACOData.init], by simp [DATACOData.init, update_stats_dates, dtMinList],
      by simp [DATACOData.init, update_stats_dates, dtMaxList]⟩
    · simp [DATACOData.init, aggContent, countSome]
  · rw [if_neg he]
    dsimp only
    rw [foldl_loadStep_content, foldl_loadStep_tags, foldl_loadStep_events,
      foldl_loadStep_processed, foldl_loadStep_failed]
    refine ⟨rfl, by simp, ?_, by simp, by simp, by simp, ?_, rfl, rfl⟩
    · simp only [List.nil_append, Nat.zero_add]
      by_cases hcp : 0 < countSome fs files <;> simp [hcp]
    · exact foldl_loadStep_dates fs files _ (by simp)

lemma load_spec (fs : FileSys) (n : String) (projects : List (String × List String)) :
    (load_dataco_data fs n projects).tags = aggTags fs (load_dataco_data fs n projects).files
  ∧ (load_dataco_data fs n projects).content
      = aggContent fs (load_dataco_data fs n projects).files
        ++ (if 0 < (load_dataco_data fs n projects).processed_files_count
            then [trailerLine] else [])
  ∧ (load_dataco_data fs n projects).event_count
      = aggEvents fs (load_dataco_data fs n projects).files
  ∧ (load_dataco_data fs n projects).processed_files_count
      = countSome fs (load_dataco_data fs n projects).files
  ∧ (load_dataco_data fs n projects).failed_files
      = failedOf fs (load_dataco_data fs n projects).files
  ∧ (∀ kv ∈ (load_dataco_data fs n projects).session_dates,
      kv.2 = parse_date_from_session kv.1)
  ∧ (load_dataco_data fs n projects).min_date
      = (update_stats_dates (load_dataco_data fs n projects).session_dates).1
  ∧ (load_dataco_data fs n projects).max_date
      = (update_stats_dates (load_dataco_data fs n projects).session_dates).2 := by
  unfold load_dataco_data
  obtain ⟨hf, ht, hc, hev, hp, hfa, hsd, hmn, hmx⟩ :=
    loadOver_spec fs n (projectScan projects).1 (sort_files_by_date_key (projectScan projects).2)
  rw [hf, hp]
  exact ⟨ht, hc, hev, rfl, hfa, hsd, hmn, hmx⟩

lemma insertByDate_perm (x : String) (l : List String) :
    List.Perm (insertByDate x l) (x :: l) := by
  induction l with
  | nil => exact List.Perm.refl _
  | cons y ys ih =>
    unfold insertByDate
    by_cases h : dtLt (get_date_key_for_sort x) (get_date_key_for_sort y) = true
    · rw [if_pos h]
    · rw [if_neg h]
      exact (ih.cons y).trans (List.Perm.swap x y ys)

lemma sort_files_perm (files : List String) :
    List.Perm (sort_files_by_date_key files) files := by
  unfold sort_files_by_date_key
  induction files with
  | nil => exact List.Perm.refl _
  | cons f rest ih =>
    rw [List.foldr_cons]
    exact (insertByDate_perm f _).trans (ih.cons f)

lemma aggTags_append (fs : FileSys) (l1 l2 : List String) :
    aggTags fs (l1 ++ l2) = aggTags fs l1 ++ aggTags fs l2 := by
  induction l1 with
  | nil => simp [aggTags]
  | cons x xs ih => simp [aggTags, ih, List.append_assoc]

lemma aggTags_perm (fs : FileSys) {l1 l2 : List String} (h : List.Perm l1 l2) :
    List.Perm (aggTags fs l1) (aggTags fs l2) := by
  induction h with
  | nil => exact List.Perm.refl _
  | cons x _ ih =>
    simp only [aggTags]
    exact List.Perm.append_left _ ih
  | swap x y l =>
    simp only [aggTags]
    rw [← List.append_assoc, ← List.append_assoc]
    exact List.Perm.append_right _ List.perm_append_comm
  | trans _ _ ih1 ih2 => exact ih1.trans ih2

lemma aggTags_count (fs : FileSys) (files : List String) (t : String) :
    (aggTags fs files).count t = (files.map (fun fp => (taskTags fs fp).count t)).sum := by
  induction files with
  | nil => simp [aggTags]
  | cons fp rest ih => simp [aggTags, List.count_append, ih]

lemma mergeBody_pair_files (fs : FileSys) (a b : DATACOData) :
    (mergeBody fs [a, b]).files = sort_files_by_date_key ((a.files ++ b.files).dedup) := by
  simp [mergeBody]

lemma mergeBody_pair_tags (fs : FileSys) (a b : DATACOData) :
    (mergeBody fs [a, b]).tags = aggTags fs ((mergeBody fs [a, b]).files) := by
  simp [mergeBody, pfmt_eq]

lemma mergeBody_pair_event (fs : FileSys) (a b : DATACOData) :
    (mergeBody fs [a, b]).event_count = aggEvents fs ((mergeBody fs [a, b]).files) := by
  simp [mergeBody, pfmt_eq]

lemma taskTags_eq_filterMap (fs : FileSys) (fp : String) :
    taskTags fs fp = (taskContent fs fp).filterMap JumpApp.extract_tag_from_line := by
  unfold taskTags taskContent
  cases h : process_file_task fs fp with
  | none => simp
  | some r =>
    obtain ⟨raw, _, _, htags⟩ := process_file_task_lines fs fp r h
    simpa using htags

lemma aggTags_filterMap (fs : FileSys) (files : List String) :
    aggTags fs files = (aggContent fs files).filterMap JumpApp.extract_tag_from_line := by
  induction files with
  | nil => simp [aggTags, aggContent]
  | cons fp rest ih =>
    simp [aggTags, aggContent, ih, taskTags_eq_filterMap, List.filterMap_append]

lemma length_filterMap_eq_countP {α β : Type} (f : α → Option β) (l : List α) :
    (l.filterMap f).length = l.countP (fun x => (f x).isSome) := by
  induction l with
  | nil => simp
  | cons x xs ih =>
    cases h : f x with
    | none => simp [List.filterMap_cons, h, List.countP_cons, ih]
    | some y => simp [List.filterMap_cons, h, List.countP_cons, ih]

lemma extract_isSome_eq (l : String) :
    (JumpApp.extract_tag_from_line l).isSome = parseableLine l := by
  unfold JumpApp.extract_tag_from_line parseableLine
  by_cases h : 4 ≤ (pySplitWS (pyStrip l)).length <;> simp [h]

lemma strptime12_year (d t : String) (dt : DateTime) (h : strptime12 d t = some dt) :
    1900 ≤ dt.year := by
  unfold strptime12 at h
  split at h
  · dsimp only at h
    split at h
    · cases h
      dsimp only
      unfold yearOfYY
      split <;> omega
    · exact absurd h (by simp)
  · exact absurd h (by simp)

lemma scanPairs_year (parts : List String) :
    ∀ dt, scanPairs parts = some dt → 1900 ≤ dt.year := by
  induction parts with
  | nil => intro dt h; simp [scanPairs] at h
  | cons p rest ih =>
    intro dt h
    cases rest with
    | nil => simp [scanPairs] at h
    | cons q rest2 =>
      simp only [scanPairs] at h
      split at h
      · split at h
        · exact strptime12_year _ _ dt h
        · exact ih dt h
      · exact ih dt h

lemma parse_date_year (s : String) (dt : DateTime)
    (h : parse_date_from_session s = some dt) : 1900 ≤ dt.year := by
  unfold parse_date_from_session at h
  dsimp only at h
  split at h
  · exact scanPairs_year _ dt h
  · exact absurd h (by simp)

lemma parse_date_ne_dtMin (s : String) (dt : DateTime)
    (h : parse_date_from_session s = some dt) : dt ≠ dtMin := by
  intro he
  have h1 := parse_date_year s dt h
  rw [he] at h1
  have : (1900 : Nat) ≤ 1 := h1
  omega

lemma update_stats_dates_eq (sd : List (String × Option DateTime))
    (h : ∀ kv ∈ sd, kv.2 = parse_date_from_session kv.1) :
    update_stats_dates sd = (dtMinList (nonNullDates sd), dtMaxList (nonNullDates sd)) := by
  unfold update_stats_dates nonNullDates
  have hf : ((sd.map Prod.snd).filterMap id).filter (fun d => d != dtMin)
      = (sd.map Prod.snd).filterMap id := by
    apply List.filter_eq_self.mpr
    intro d hd
    rcases List.mem_filterMap.mp hd with ⟨a, ha, hid⟩
    rcases List.mem_map.mp ha with ⟨kv, hkv, hsnd⟩
    have hkv2 : kv.2 = some d := by rw [hsnd]; exact hid
    rw [h kv hkv] at hkv2
    exact bne_iff_ne.mpr (parse_date_ne_dtMin kv.1 d hkv2)
  rw [hf]

lemma dtLt_cross3 {a b c : DateTime} (h1 : dtLt a c = true) (h2 : dtLt b c = false) :
    dtLt a b = true := by
  have h2' : ¬ (dtLt b c = true) := by simp [h2]
  rw [dtLt_iff] at h1 h2' ⊢
  omega

lemma foldlMin_spec (xs : List DateTime) : ∀ x : DateTime,
    (xs.foldl (fun m d => if dtLt d m then d else m) x) ∈ x :: xs
  ∧ ∀ y ∈ x :: xs, dtLt y (xs.foldl (fun m d => if dtLt d m then d else m) x) = false := by
  induction xs with
  | nil =>
    intro x
    refine ⟨List.mem_cons_self x [], ?_⟩
    intro y hy
    rcases List.mem_cons.mp hy with h | h
    · rw [h]; exact dtLt_irrefl x
    · simp at h
  | cons d rest ih =>
    intro x
    rw [List.foldl_cons]
    by_cases hc : dtLt d x = true
    · rw [if_pos hc]
      obtain ⟨hmem, hmin⟩ := ih d
      refine ⟨List.mem_cons_of_mem x hmem, ?_⟩
      intro y hy
      rcases List.mem_cons.mp hy with h | h
      · subst h
        cases hxm : dtLt y (List.foldl (fun m d => if dtLt d m then d else m) d rest) with
        | false => rfl
        | true =>
          have hd := hmin d (List.mem_cons_self d rest)
          have := dtLt_trans hc hxm
          rw [this] at hd
          cases hd
      · exact hmin y h
    · rw [if_neg hc]
      obtain ⟨hmem, hmin⟩ := ih x
      refine ⟨?_, ?_⟩
      · rcases List.mem_cons.mp hmem with h | h
        · rw [h]; exact List.mem_cons_self x _
        · exact List.mem_cons_of_mem x (List.mem_cons_of_mem d h)
      · intro y hy
        rcases List.mem_cons.mp hy with h | h
        · subst h
          exact hmin y (List.mem_cons_self y rest)
        · rcases List.mem_cons.mp h with h2 | h2
          · subst h2
            cases hdm : dtLt y (List.foldl (fun m d => if dtLt d m then d else m) x rest) with
            | false => rfl
            | true =>
              have hc' : dtLt y x = false := by
                cases hb : dtLt y x
                · rfl
                · exact absurd hb hc
              have hx := hmin x (List.mem_cons_self x rest)
              have := dtLt_cross hdm hc'
              rw [this] at hx
              cases hx
          · exact hmin y (List.mem_cons_of_mem x h2)

lemma foldlMax_spec (xs : List DateTime) : ∀ x : DateTime,
    (xs.foldl (fun m d => if dtLt m d then d else m) x) ∈ x :: xs
  ∧ ∀ y ∈ x :: xs, dtLt (xs.foldl (fun m d => if dtLt m d then d else m) x) y = false := by
  induction xs with
  | nil =>
    intro x
    refine ⟨List.mem_cons_self x [], ?_⟩
    intro y hy
    rcases List.mem_cons.mp hy with h | h
    · rw [h]; exact dtLt_irrefl x
    · simp at h
  | cons d rest ih =>
    intro x
    rw [List.foldl_cons]
    by_cases hc : dtLt x d = true
    · rw [if_pos hc]
      obtain ⟨hmem, hmax⟩ := ih d
      refine ⟨List.mem_cons_of_mem x hmem, ?_⟩
      intro y hy
      rcases List.mem_cons.mp hy with h | h
      · subst h
        cases hxm : dtLt (List.foldl (fun m d => if dtLt m d then d else m) d rest) y with
        | false => rfl
        | true =>
          have hd := hmax d (List.mem_cons_self d rest)
          have := dtLt_trans hxm hc
          rw [this] at hd
          cases hd
      · exact hmax y h
    · rw [if_neg hc]
      obtain ⟨hmem, hmax⟩ := ih x
      refine ⟨?_, ?_⟩
      · rcases List.mem_cons.mp hmem with h | h
        · rw [h]; exact List.mem_cons_self x _
        · exact List.mem_cons_of_mem x (List.mem_cons_of_mem d h)
      · intro y hy
        rcases List.mem_cons.mp hy with h | h
        · subst h
          exact hmax y (List.mem_cons_self y rest)
        · rcases List.mem_cons.mp h with h2 | h2
          · subst h2
            cases hdm : dtLt (List.foldl (fun m d => if dtLt m d then d else m) x rest) y with
            | false => rfl
            | true =>
              have hc' : dtLt x y = false := by
                cases hb : dtLt x y
                · rfl
                · exact absurd hb hc
              have hx := hmax x (List.mem_cons_self x rest)
              have := dtLt_cross3 hdm hc'
              rw [this] at hx
              cases hx
          · exact hmax y (List.mem_cons_of_mem x h2)

lemma dtMinList_spec (l : List DateTime) (m : DateTime) (h : dtMinList l = some m) :
    m ∈ l ∧ ∀ x ∈ l, dtLt x m = false := by
  cases l with
  | nil => simp [dtMinList] at h
  | cons x xs =>
    unfold dtMinList at h
    cases h
    exact foldlMin_spec xs x

lemma dtMaxList_spec (l : List DateTime) (m : DateTime) (h : dtMaxList l = some m) :
    m ∈ l ∧ ∀ x ∈ l, dtLt m x = false := by
  cases l with
  | nil => simp [dtMaxList] at h
  | cons x xs =>
    unfold dtMaxList at h
    cases h
    exact foldlMax_spec xs x

lemma dtMinList_none_iff (l : List DateTime) : dtMinList l = none ↔ l = [] := by
  cases l <;> simp [dtMinList]

lemma lastD_eq_join_of_len4 (parts : List String) (h : parts.length = 4) :
    parts.getLastD ("") = joinWith (" ") (parts.drop 3) := by
  rcases parts with _ | ⟨a, _ | ⟨b, _ | ⟨c, _ | ⟨d, _ | ⟨e, tl⟩⟩⟩⟩⟩
  · simp at h
  · simp at h
  · simp at h
  · simp at h
  · rfl
  · exfalso
    simp [List.length_cons] at h

lemma sum_counts_eq_goodLines (fs : FileSys) (files : List String) (extra : List String)
    (hextra : ∀ l ∈ extra, strStartsWith l formatMarker = true) :
    ((aggTags fs files).dedup.map (fun t => (aggTags fs files).count t)).sum
      = ((aggContent fs files ++ extra).filter
          (fun l => !(strStartsWith l formatMarker) && parseableLine l)).length := by
  rw [List.sum_map_count_dedup_eq_length, aggTags_filterMap, length_filterMap_eq_countP]
  rw [List.filter_append, List.length_append]
  have h1 : (extra.filter (fun l => !(strStartsWith l formatMarker) && parseableLine l)) = [] := by
    apply List.filter_eq_nil_iff.mpr
    intro l hl
    simp [hextra l hl]
  rw [h1]
  simp only [List.length_nil, Nat.add_zero]
  rw [← List.countP_eq_length_filter]
  apply List.countP_congr
  intro l hl
  have hm := aggContent_no_marker fs files l hl
  simp [hm, extract_isSome_eq]

/-! ## Claims -/

/-- C1: merging two aggregates never double-counts shared files:
`merge_dataco_results` succeeds on a pair, its file list is the
duplicate-free union (by path equality) of the inputs' file lists, and
the content/tag statistics are re-aggregated from scratch over that
union, so each file - shared or not - contributes its lines and tags
exactly once; when the two loads' file sets are disjoint the merged
`tag_counts` is the field-wise sum of the inputs' `tag_counts`. -/
theorem C1_merge_reaggregates_union (fs : FileSys) (na nb : String)
    (pa pb : List (String × List String)) (a b : DATACOData)
    (ha : a = load_dataco_data fs na pa) (hb : b = load_dataco_data fs nb pb)
    (hna : a.files.Nodup) (hnb : b.files.Nodup) :
    merge_dataco_results fs [a, b] = some (mergeBody fs [a, b])
  ∧ (mergeBody fs [a, b]).files.Nodup
  ∧ (∀ f, f ∈ (mergeBody fs [a, b]).files ↔ f ∈ a.files ∨ f ∈ b.files)
  ∧ ((∀ f ∈ a.files, f ∉ b.files) →
      ∀ t, (mergeBody fs [a, b]).tag_counts t = a.tag_counts t + b.tag_counts t)
  ∧ (mergeBody fs [a, b]).event_count
      = ((mergeBody fs [a, b]).files.map (fun fp => (taskContent fs fp).length)).sum
  ∧ (∀ t, (mergeBody fs [a, b]).tag_counts t
      = ((mergeBody fs [a, b]).files.map (fun fp => (taskTags fs fp).count t)).sum) := by
  have hperm : List.Perm (mergeBody fs [a, b]).files ((a.files ++ b.files).dedup) := by
    rw [mergeBody_pair_files]
    exact sort_files_perm _
  refine ⟨?_, ?_, ?_, ?_, ?_, ?_⟩
  · unfold merge_dataco_results
    rw [if_neg (by simp)]
  · exact hperm.symm.nodup (List.nodup_dedup _)
  · intro f
    rw [hperm.mem_iff, List.mem_dedup, List.mem_append]
  · intro hdisj t
    have hnodup : (a.files ++ b.files).Nodup := hna.append hnb (fun x hx hx2 => hdisj x hx hx2)
    have hded : (a.files ++ b.files).dedup = a.files ++ b.files := List.dedup_eq_self.mpr hnodup
    unfold DATACOData.tag_counts
    rw [mergeBody_pair_tags]
    rw [(aggTags_perm fs hperm).count_eq t, hded, aggTags_append, List.count_append]
    have hta : a.tags = aggTags fs a.files := by rw [ha]; exact (load_spec fs na pa).1
    have htb : b.tags = aggTags fs b.files := by rw [hb]; exact (load_spec fs nb pb).1
    rw [hta, htb]
  · exact mergeBody_pair_event fs a b
  · intro t
    unfold DATACOData.tag_counts
    rw [mergeBody_pair_tags]
    exact aggTags_count fs _ t

/-- C1 witness: two concrete disjoint single-file datasets; the merged
count of the shared tag value `dog` is the sum of the inputs' counts. -/
theorem C1_merge_reaggregates_union_witness :
    ((load_dataco_data fsC1 ("1") paC1).files.Nodup
      ∧ (load_dataco_data fsC1 ("2") pbC1).files.Nodup
      ∧ (∀ f ∈ (load_dataco_data fsC1 ("1") paC1).files,
          f ∉ (load_dataco_data fsC1 ("2") pbC1).files))
  ∧ (mergeBody fsC1 [load_dataco_data fsC1 ("1") paC1,
        load_dataco_data fsC1 ("2") pbC1]).tag_counts ("dog")
      = (load_dataco_data fsC1 ("1") paC1).tag_counts ("dog")
        + (load_dataco_data fsC1 ("2") pbC1).tag_counts ("dog") :=
  ⟨⟨by decide, by decide, by decide⟩,
    (C1_merge_reaggregates_union fsC1 ("1") ("2") paC1 pbC1 _ _ rfl rfl
      (by decide) (by decide)).2.2.2.1 (by decide) ("dog")⟩

/-- C2 counterexample: a genuine merge of two loads whose files are
decodable but hold only `#format:` lines.  Both inputs were processed
successfully (the merged `processed_files_count` is 2 > 0), yet the
re-aggregation pass produces empty `content` with NO trailer appended,
refuting "if at least one file was processed successfully then exactly
one canonical trailer line is appended". -/
theorem C2_trailer_counterexample :
    (merge_dataco_results fsC2 [load_dataco_data fsC2 ("1") paC2,
        load_dataco_data fsC2 ("2") pbC2]).map
        (fun m => (m.processed_files_count, m.content))
      = some (2, ([] : List String)) := by
  rfl

/-- C2 amended: in a plain load the trailer is appended exactly when at
least one file was processed; in the re-aggregation pass used by merge
it is appended exactly when the combined content is nonempty (a run
whose processed files all contributed zero content lines gets NO
trailer); whenever the trailer is present it occurs exactly once and
only as the final element of `content`. -/
theorem C2_trailer_amended (fs : FileSys) (n : String)
    (projects : List (String × List String)) (files : List String) :
    (trailerLine ∈ (load_dataco_data fs n projects).content
        ↔ 0 < (load_dataco_data fs n projects).processed_files_count)
  ∧ (0 < (load_dataco_data fs n projects).processed_files_count →
        (load_dataco_data fs n projects).content
          = aggContent fs (load_dataco_data fs n projects).files ++ [trailerLine]
        ∧ trailerLine ∉ aggContent fs (load_dataco_data fs n projects).files
        ∧ (load_dataco_data fs n projects).content.count trailerLine = 1)
  ∧ (trailerLine ∈ (process_files_multi_threaded fs files).1 ↔ aggContent fs files ≠ [])
  ∧ (aggContent fs files ≠ [] →
        (process_files_multi_threaded fs files).1 = aggContent fs files ++ [trailerLine]
        ∧ trailerLine ∉ aggContent fs files
        ∧ (process_files_multi_threaded fs files).1.count trailerLine = 1) := by
  have hc := (load_spec fs n projects).2.1
  have hA := trailer_not_mem_aggContent fs (load_dataco_data fs n projects).files
  have hB := trailer_not_mem_aggContent fs files
  refine ⟨?_, ?_, ?_, ?_⟩
  · rw [hc]
    by_cases hp : 0 < (load_dataco_data fs n projects).processed_files_count
    · simp [hp, List.mem_append]
    · simp [hp, List.mem_append, hA]
  · intro hp
    rw [hc]
    rw [if_pos hp]
    refine ⟨rfl, hA, ?_⟩
    rw [List.count_append, List.count_eq_zero.mpr hA, List.count_singleton_self]
  · rw [pfmt_eq]
    by_cases hn : aggContent fs files = []
    · simp [hn, hB]
    · simp [hn, List.mem_append]
  · intro hn
    rw [pfmt_eq]
    rw [if_neg hn]
    refine ⟨rfl, hB, ?_⟩
    rw [List.count_append, List.count_eq_zero.mpr hB, List.count_singleton_self]

/-- C2 witness: a concrete load that processed one file carries the
trailer exactly once. -/
theorem C2_trailer_amended_witness :
    0 < (load_dataco_data fsC1 ("1") paC1).processed_files_count
  ∧ (load_dataco_data fsC1 ("1") paC1).content.count trailerLine = 1 :=
  ⟨by decide, ((C2_trailer_amended fsC1 ("1") paC1 []).2.1 (by decide)).2.2⟩

/-- C3 counterexample: the claim says `timestampOf ("250108_095047")`
accepts and returns 2025-01-08T09:50:47, but the code's three-token
guard (`len(parts) >= 3`) makes it return `None` on this two-token
session name. -/
theorem C3_timestamp_counterexample :
    parse_date_from_session ("250108_095047") = none
  ∧ parse_date_from_session ("250108_095047") ≠ some ⟨2025, 1, 8, 9, 50, 47⟩ := by
  refine ⟨by decide, by decide⟩

/-- C3 amended: calendar validation works as claimed, but only for
session names with at least three underscore-separated tokens; both
quoted two-token inputs yield `None` (the valid one included), while the
same digit pairs embedded in a three-token name are accepted/rejected
exactly as the claim describes, and `strptime` itself rejects Feb 30. -/
theorem C3_timestamp_amended :
    parse_date_from_session ("250230_100000") = none
  ∧ parse_date_from_session ("250108_095047") = none
  ∧ parse_date_from_session ("Sess_250108_095047") = some ⟨2025, 1, 8, 9, 50, 47⟩
  ∧ parse_date_from_session ("Sess_250230_100000") = none
  ∧ strptime12 ("250230") ("100000") = none
  ∧ strptime12 ("250108") ("095047") = some ⟨2025, 1, 8, 9, 50, 47⟩ := by
  refine ⟨by decide, by decide, by decide, by decide, by decide, by decide⟩

/-- C4 counterexample: `P/DATACO-1.jump` decodes fine (`fsC4` returns
its lines) but its basename does not match the session-name pattern;
the load records it in `failed_files`, refuting "such a file's name
never appears in failedFiles". -/
theorem C4_name_mismatch_counterexample :
    fsC4 ("P/DATACO-1.jump") ≠ none
  ∧ extract_session_name ("P/DATACO-1.jump") = none
  ∧ pyBasename ("P/DATACO-1.jump") ∈ (load_dataco_data fsC4 ("1") pC4).failed_files := by
  refine ⟨by decide, by decide, by decide⟩

/-- C4 amended: `failed_files` records exactly the files whose task
returned `None` - that covers BOTH decode/open failures and
name-mismatch files, so a file whose name does not fit the pattern is
excluded from aggregation but IS counted as failed. -/
theorem C4_failed_files_amended (fs : FileSys) (n : String)
    (projects : List (String × List String)) :
    (load_dataco_data fs n projects).failed_files
      = ((load_dataco_data fs n projects).files.filter
          (fun fp => (process_file_task fs fp).isNone)).map pyBasename
  ∧ ∀ fp ∈ (load_dataco_data fs n projects).files, extract_session_name fp = none →
      pyBasename fp ∈ (load_dataco_data fs n projects).failed_files := by
  have hf := (load_spec fs n projects).2.2.2.2.1
  refine ⟨hf, ?_⟩
  intro fp hfp hsess
  rw [hf]
  unfold failedOf
  apply List.mem_map_of_mem
  apply List.mem_filter.mpr
  refine ⟨hfp, ?_⟩
  simp [process_file_task, hsess]

/-- C4 witness: the concrete name-mismatch file is in the load's file
list and lands in `failed_files`. -/
theorem C4_failed_files_amended_witness :
    ("P/DATACO-1.jump") ∈ (load_dataco_data fsC4 ("1") pC4).files
  ∧ pyBasename ("P/DATACO-1.jump") ∈ (load_dataco_data fsC4 ("1") pC4).failed_files :=
  ⟨by decide, (C4_failed_files_amended fsC4 ("1") pC4).2 ("P/DATACO-1.jump")
    (by decide) (by decide)⟩

/-- C5: the src/src `load_dataco` computes
`yesterday = now.replace(day=now.day-1)` after processing; on the first
day of any month `now.day - 1 = 0` and `datetime.replace` raises
`ValueError`, so the load raises instead of returning a structured
result whenever at least one file matched.  This contradicts the spec's
"no operation throws uncaught" and is a slip (the jumpapp revision has
no such computation). -/
theorem C5_load_raises_on_month_first (now : DateTime) (fs : FileSys)
    (n : String) (files : List String) (hf : files ≠ []) (hd : now.day = 1) :
    SrcScripts.load_dataco now fs n files = Except.error PyExn.valueError := by
  unfold SrcScripts.load_dataco
  rw [if_neg (by simp [List.isEmpty_iff, hf])]
  dsimp only
  rw [show replaceDay now (now.day - 1) = Except.error PyExn.valueError by
    unfold replaceDay
    rw [if_neg]
    rw [hd]
    omega]

/-- C5 witness: a concrete run on 2025-03-01 with one matching file
raises `ValueError`. -/
theorem C5_load_raises_on_month_first_witness :
    (["P/S_a_DATACO-1.jump"] : List String) ≠ []
  ∧ nowDayOne.day = 1
  ∧ SrcScripts.load_dataco nowDayOne fsNone ("1") ["P/S_a_DATACO-1.jump"]
      = Except.error PyExn.valueError :=
  ⟨by decide, by decide, C5_load_raises_on_month_first nowDayOne fsNone ("1")
    ["P/S_a_DATACO-1.jump"] (by decide) (by decide)⟩

/-- C6 counterexample: on a 5-field line the jumpapp `tagOf` returns
only the last field, not the join of the fields from index 3 onward
that the claim states (and that the src/src revision implements), so
multi-word tags are NOT supported by the jumpapp revision. -/
theorem C6_tag_counterexample :
    JumpApp.extract_tag_from_line ("a b c d e") = some ("e")
  ∧ SrcScripts.extract_tag_from_line ("a b c d e") = some ("d e")
  ∧ JumpApp.extract_tag_from_line ("a b c d e")
      ≠ SrcScripts.extract_tag_from_line ("a b c d e") := by
  refine ⟨by decide, by decide, by decide⟩

/-- C6 amended: both revisions return `None` exactly when the line has
fewer than 4 whitespace-separated fields; the src/src revision returns
the join of the fields from index 3 onward (multi-word tags), the
jumpapp revision returns only the last field; they agree exactly on
4-field lines. -/
theorem C6_tag_amended (line : String) :
    (JumpApp.extract_tag_from_line line = none ↔ (pySplitWS (pyStrip line)).length < 4)
  ∧ (SrcScripts.extract_tag_from_line line = none ↔ (pySplitWS (pyStrip line)).length < 4)
  ∧ (4 ≤ (pySplitWS (pyStrip line)).length →
      SrcScripts.extract_tag_from_line line
        = some (joinWith (" ") ((pySplitWS (pyStrip line)).drop 3))
      ∧ JumpApp.extract_tag_from_line line
        = some ((pySplitWS (pyStrip line)).getLastD ("")))
  ∧ ((pySplitWS (pyStrip line)).length = 4 →
      JumpApp.extract_tag_from_line line = SrcScripts.extract_tag_from_line line) := by
  unfold JumpApp.extract_tag_from_line SrcScripts.extract_tag_from_line
  dsimp only
  by_cases h : 4 ≤ (pySplitWS (pyStrip line)).length
  · rw [if_pos h, if_neg (by omega)]
    refine ⟨by simp; omega, by simp; omega, fun _ => ⟨rfl, rfl⟩, ?_⟩
    intro h4
    rw [lastD_eq_join_of_len4 _ h4]
  · rw [if_neg h, if_pos (by omega)]
    refine ⟨by simp; omega, by simp; omega, fun hx => absurd hx h, fun hx => absurd hx (by omega)⟩

/-- C6 witness: the two revisions agree on a concrete 4-field line. -/
theorem C6_tag_amended_witness :
    (pySplitWS (pyStrip ("a b c d"))).length = 4
  ∧ JumpApp.extract_tag_from_line ("a b c d") = SrcScripts.extract_tag_from_line ("a b c d") :=
  ⟨by decide, (C6_tag_amended ("a b c d")).2.2.2 (by decide)⟩

/-- C7 counterexample: the trailer line itself has 5 whitespace fields,
so it counts as "a line with at least 4 whitespace-separated fields";
with one data line the tag-count sum is 1 but the content has 2 such
lines, refuting the claimed equality. -/
theorem C7_sum_counterexample :
    ((load_dataco_data fsC1 ("1") paC1).tags.dedup.map
        (fun t => (load_dataco_data fsC1 ("1") paC1).tag_counts t)).sum
      ≠ ((load_dataco_data fsC1 ("1") paC1).content.filter parseableLine).length := by
  decide

/-- C7 amended: `tag_counts` values are non-negative and their sum over
all tags equals the number of content lines that do NOT start with
`#format:` (i.e. excluding the appended trailer) and have at least 4
whitespace-separated fields; that number is at most the content length.
This holds for plain loads and for the re-aggregation pass used by
merge. -/
theorem C7_sum_amended (fs : FileSys) (n : String)
    (projects : List (String × List String)) (files : List String) :
    (∀ t, 0 ≤ (load_dataco_data fs n projects).tag_counts t)
  ∧ ((load_dataco_data fs n projects).tags.dedup.map
        (fun t => (load_dataco_data fs n projects).tag_counts t)).sum
      = ((load_dataco_data fs n projects).content.filter
          (fun l => !(strStartsWith l formatMarker) && parseableLine l)).length
  ∧ ((load_dataco_data fs n projects).content.filter
        (fun l => !(strStartsWith l formatMarker) && parseableLine l)).length
      ≤ (load_dataco_data fs n projects).content.length
  ∧ ((process_files_multi_threaded fs files).2.1.dedup.map
        (fun t => ((process_files_multi_threaded fs files).2.1).count t)).sum
      = ((process_files_multi_threaded fs files).1.filter
          (fun l => !(strStartsWith l formatMarker) && parseableLine l)).length
  ∧ ((process_files_multi_threaded fs files).1.filter
        (fun l => !(strStartsWith l formatMarker) && parseableLine l)).length
      ≤ (process_files_multi_threaded fs files).1.length := by
  have ht := (load_spec fs n projects).1
  have hc := (load_spec fs n projects).2.1
  refine ⟨fun t => Nat.zero_le _, ?_, List.length_filter_le _ _, ?_, List.length_filter_le _ _⟩
  · unfold DATACOData.tag_counts
    rw [ht, hc]
    apply sum_counts_eq_goodLines
    intro l hl
    by_cases hp : 0 < (load_dataco_data fs n projects).processed_files_count
    · rw [if_pos hp] at hl
      rcases List.mem_cons.mp hl with h1 | h1
      · rw [h1]; decide
      · simp at h1
    · rw [if_neg hp] at hl
      simp at hl
  · rw [pfmt_eq]
    dsimp only
    apply sum_counts_eq_goodLines
    intro l hl
    by_cases hn : aggContent fs files = []
    · rw [if_pos hn] at hl
      simp at hl
    · rw [if_neg hn] at hl
      rcases List.mem_cons.mp hl with h1 | h1
      · rw [h1]; decide
      · simp at h1

/-- C7 witness: the amended sum equality evaluated on a concrete load. -/
theorem C7_sum_amended_witness :
    ((load_dataco_data fsC1 ("1") paC1).tags.dedup.map
        (fun t => (load_dataco_data fsC1 ("1") paC1).tag_counts t)).sum
      = ((load_dataco_data fsC1 ("1") paC1).content.filter
          (fun l => !(strStartsWith l formatMarker) && parseableLine l)).length :=
  (C7_sum_amended fsC1 ("1") paC1 []).2.1

/-- C8 counterexample: in the src/src revision, a load whose only
session name `S` yields no parseable date still reports a non-null
`min_date` - namely "yesterday" (now minus one day), not the minimum of
the session dates, refuting "both are null when no session produced a
valid date". -/
theorem C8_min_date_counterexample :
    parse_date_from_session ("S") = none
  ∧ (SrcScripts.load_dataco nowMid fsC8 ("7") ["P/S_DATACO-7.jump"]).map
        SrcScripts.BLoad.sessionsOf = Except.ok [("S")]
  ∧ (SrcScripts.load_dataco nowMid fsC8 ("7") ["P/S_DATACO-7.jump"]).map
        SrcScripts.BLoad.minDateOf = Except.ok (some ⟨2025, 3, 14, 10, 0, 0⟩) := by
  refine ⟨by decide, by rfl, by rfl⟩

/-- C8 amended: in the jumpapp revision `min_date`/`max_date` equal
Python's `min`/`max` over the non-null `session_dates` values (the
code's extra `datetime.min` filter is vacuous because parsed dates have
year at least 1969), and `dtMinList`/`dtMaxList` really compute minimum
and maximum (a member with no smaller/greater element, `none` exactly on
the empty list); the src/src revision instead always reports
yesterday/now irrespective of session dates. -/
theorem C8_min_max_amended :
    (∀ (fs : FileSys) (n : String) (projects : List (String × List String)),
        (load_dataco_data fs n projects).min_date
          = dtMinList (nonNullDates (load_dataco_data fs n projects).session_dates)
      ∧ (load_dataco_data fs n projects).max_date
          = dtMaxList (nonNullDates (load_dataco_data fs n projects).session_dates))
  ∧ (∀ (l : List DateTime) (m : DateTime), dtMinList l = some m →
        m ∈ l ∧ ∀ x ∈ l, dtLt x m = false)
  ∧ (∀ (l : List DateTime) (m : DateTime), dtMaxList l = some m →
        m ∈ l ∧ ∀ x ∈ l, dtLt m x = false)
  ∧ (∀ l : List DateTime, dtMinList l = none ↔ l = [])
  ∧ (∀ (now : DateTime) (fs : FileSys) (n : String) (files : List String),
        files ≠ [] → 1 ≤ now.day - 1 → now.day - 1 ≤ daysInMonth now.year now.month →
        ∃ r, SrcScripts.load_dataco now fs n files
              = Except.ok (SrcScripts.BLoad.okDict r)
          ∧ r.min_date = some { now with day := now.day - 1 }
          ∧ r.max_date = some now) := by
  refine ⟨?_, dtMinList_spec, dtMaxList_spec, dtMinList_none_iff, ?_⟩
  · intro fs n projects
    obtain ⟨-, -, -, -, -, hsd, hmn, hmx⟩ := load_spec fs n projects
    rw [update_stats_dates_eq _ hsd] at hmn hmx
    exact ⟨hmn, hmx⟩
  · intro now fs n files hne h1 h2
    unfold SrcScripts.load_dataco
    rw [if_neg (by simp [List.isEmpty_iff, hne])]
    dsimp only
    rw [show replaceDay now (now.day - 1) = Except.ok { now with day := now.day - 1 } by
      unfold replaceDay
      rw [if_pos ⟨h1, h2⟩]]
    exact ⟨_, rfl, rfl, rfl⟩

/-- C8 witness: the min/max components applied at concrete inputs, with
every hypothesis discharged by evaluation. -/
theorem C8_min_max_amended_witness :
    (dtMinList [dtMin] = some dtMin ∧ dtMin ∈ [dtMin])
  ∧ ((["f"] : List String) ≠ [] ∧ 1 ≤ nowMid.day - 1
      ∧ nowMid.day - 1 ≤ daysInMonth nowMid.year nowMid.month
      ∧ ∃ r, SrcScripts.load_dataco nowMid fsNone ("9") [("f")]
            = Except.ok (SrcScripts.BLoad.okDict r)
        ∧ r.min_date = some { nowMid with day := nowMid.day - 1 }
        ∧ r.max_date = some nowMid) :=
  ⟨⟨rfl, (C8_min_max_amended.2.1 [dtMin] dtMin rfl).1⟩,
    ⟨by decide, by decide, by decide,
      C8_min_max_amended.2.2.2.2 nowMid fsNone ("9") [("f")]
        (by decide) (by decide) (by decide)⟩⟩

/-- C9 counterexample: the src/src `compare_datacos` with two requested
ids of which only one is valid (dataset 2 has no files) returns a
comparison payload over a single dataset instead of a structured error. -/
theorem C9_compare_counterexample :
    discC9 ("2") = []
  ∧ (SrcScripts.compare_datacos nowMid fsC9 discC9 [("1"), ("2")]).map
        (fun r => (SrcScripts.BCompare.isErr r, SrcScripts.BCompare.datasetsOf r))
      = Except.ok (false, [("1")]) := by
  refine ⟨rfl, by rfl⟩

/-- C9 amended: the jumpapp `compare_datacos`/`merge_datacos` return the
structured error dictionary whenever fewer than 2 of the requested
datasets are valid (found files); the src/src `compare_datacos` returns
its structured error only when fewer than 2 ids are REQUESTED - with at
least 2 requested but fewer than 2 valid it proceeds and returns a
payload over the valid datasets (see the counterexample). -/
theorem C9_insufficient_amended (fs : FileSys)
    (disc : String → List (String × List String)) (numbers : List String)
    (now : DateTime) (fsb : FileSys) (discb : String → List String)
    (numbersb : List String)
    (hA : ((numbers.map (fun n => load_dataco_data fs n (disc n))).filter
        (fun d => !d.files.isEmpty)).length < 2)
    (hB : numbersb.length < 2) :
    compare_datacos fs disc numbers
      = ACompare.errDict ("Need at least two valid DATACO datasets to compare")
  ∧ merge_datacos fs disc numbers
      = AMerge.errDict ("Need at least two valid DATACO datasets to merge")
  ∧ SrcScripts.compare_datacos now fsb discb numbersb
      = Except.ok (SrcScripts.BCompare.errDict
          ("At least two DATACO numbers are required for comparison")) := by
  refine ⟨?_, ?_, ?_⟩
  · unfold compare_datacos
    dsimp only
    rw [if_pos hA]
  · unfold merge_datacos
    dsimp only
    rw [if_pos hA]
  · unfold SrcScripts.compare_datacos
    rw [if_pos hB]

/-- C9 witness: one requested dataset with no files yields the
structured errors in both revisions. -/
theorem C9_insufficient_amended_witness :
    ((([("1")] : List String).map (fun n => load_dataco_data fsNone n (discAEmpty n))).filter
        (fun d => !d.files.isEmpty)).length < 2
  ∧ ([("1")] : List String).length < 2
  ∧ compare_datacos fsNone discAEmpty [("1")]
      = ACompare.errDict ("Need at least two valid DATACO datasets to compare")
  ∧ SrcScripts.compare_datacos nowMid fsNone discBEmpty [("1")]
      = Except.ok (SrcScripts.BCompare.errDict
          ("At least two DATACO numbers are required for comparison")) :=
  ⟨by decide, by decide,
    (C9_insufficient_amended fsNone discAEmpty [("1")] nowMid fsNone discBEmpty [("1")]
      (by decide) (by decide)).1,
    (C9_insufficient_amended fsNone discAEmpty [("1")] nowMid fsNone discBEmpty [("1")]
      (by decide) (by decide)).2.2⟩

/-- C10: a session name with fewer than 3 underscore-separated tokens is
always rejected by `parse_date_from_session`, even when it is exactly a
valid `YYMMDD_HHMMSS` pair. -/
theorem C10_short_names_rejected (s : String)
    (h : (pySplitChar ('_') s).length < 3) :
    parse_date_from_session s = none := by
  unfold parse_date_from_session
  dsimp only
  rw [if_neg (by omega)]

/-- C10 witness: the two-token name `250108_095047` is a syntactically
valid date/time pair yet yields `None`. -/
theorem C10_short_names_rejected_witness :
    (pySplitChar ('_') ("250108_095047")).length < 3
  ∧ parse_date_from_session ("250108_095047") = none :=
  ⟨by decide, C10_short_names_rejected ("250108_095047") (by decide)⟩

end DCJumps
